import Mathlib

/-!
Shallow embedding of the sentence-level vector store and its ingestion and
query pipelines from `src/app.py` (`extract_file_content`, `populate_database`,
`search_similar_content`).  External collaborators (text decoding, the sentence
segmenter, the embedding model) are parameters; the vector store backing
`document_storage` is modelled from the spec, since the store library itself is
not part of the repository.  Embedding vectors are modelled as lists of
rationals; the outcome strings returned by the Python functions are modelled as
inductive outcome types.
-/

/-- One stored unit: identifier, embedding vector and source text. -/
structure VectorRecord where
  id : String
  embedding : List ℚ
  text : String
deriving DecidableEq, Repr

/-- Errors of the store's `add` operation, as enumerated by the spec. -/
inductive StoreError where
  | duplicateId
  | dimensionMismatch
  | emptyText
deriving DecidableEq, Repr

/-- The in-memory vector store: records in insertion order. -/
structure VectorStore where
  records : List VectorRecord
deriving DecidableEq, Repr

/-- The store the process starts with (the freshly created collection). -/
def VectorStore.empty : VectorStore := ⟨[]⟩

/-- Whether some stored record already carries the identifier `i`. -/
def VectorStore.hasId (store : VectorStore) (i : String) : Bool :=
  store.records.any fun r => r.id == i

/-- Whether the vector `v` matches the store's established dimension `D`
(the dimension of the first inserted record; any dimension is fine while the
store is empty). -/
def VectorStore.dimOk (store : VectorStore) (v : List ℚ) : Bool :=
  match store.records.head? with
  | some r0 => v.length == r0.embedding.length
  | none => true

/-- Modelled from the spec: the store's `add` operation (the backing collection
library is not part of the repository).  It rejects a duplicate id, a
dimension mismatch once `D` is established, and empty text; on success the
record is appended, preserving insertion order. -/
def VectorStore.add (store : VectorStore) (r : VectorRecord) :
    Except StoreError VectorStore :=
  if store.hasId r.id then .error .duplicateId
  else if store.dimOk r.embedding then
    if r.text = "" then .error .emptyText
    else .ok ⟨store.records ++ [r]⟩
  else .error .dimensionMismatch

/-- Dot product of two embedding vectors. -/
def dotProduct (a b : List ℚ) : ℚ :=
  (List.zipWith (fun x y => x * y) a b).sum

/-- Squared Euclidean norm of an embedding vector. -/
def normSq (a : List ℚ) : ℚ := dotProduct a a

/-- Square of `x` with the sign of `x` kept; strictly monotone on ℚ. -/
def signedSq (x : ℚ) : ℚ := if x < 0 then -(x * x) else x * x

/-- Rational surrogate for the cosine similarity of `q` and `v`: the
sign-carrying square of the cosine, `sign(q⬝v) * (q⬝v)^2 / (‖q‖^2 ‖v‖^2)`.
Because `signedSq` is strictly monotone and the denominator is the square of
the product of the norms, this score orders any two vectors exactly as their
cosine similarities to `q` do, while staying inside ℚ (the cosine itself
involves square roots).  Degenerate zero-norm vectors score 0. -/
def cosScore (q v : List ℚ) : ℚ :=
  if normSq q * normSq v = 0 then 0
  else signedSq (dotProduct q v) / (normSq q * normSq v)

/-- Similarity of an insertion-indexed record to the query `q`. -/
def score (q : List ℚ) (x : Nat × VectorRecord) : ℚ :=
  cosScore q x.2.embedding

/-- Ranking order used by the store's search: higher similarity first, ties
broken in favor of the earlier-inserted record (smaller insertion index). -/
def rank (q : List ℚ) (x y : Nat × VectorRecord) : Prop :=
  score q y < score q x ∨ (score q x = score q y ∧ x.1 ≤ y.1)

instance rankDecidable (q : List ℚ) : DecidableRel (rank q) := fun x y => by
  unfold rank
  infer_instance

instance rankTotal (q : List ℚ) : IsTotal (Nat × VectorRecord) (rank q) where
  total x y := by
    unfold rank
    rcases lt_trichotomy (score q x) (score q y) with h | h | h
    · exact Or.inr (Or.inl h)
    · rcases Nat.le_total x.1 y.1 with hn | hn
      · exact Or.inl (Or.inr ⟨h, hn⟩)
      · exact Or.inr (Or.inr ⟨h.symm, hn⟩)
    · exact Or.inl (Or.inl h)

instance rankTrans (q : List ℚ) : IsTrans (Nat × VectorRecord) (rank q) where
  trans x y z hxy hyz := by
    unfold rank at hxy hyz ⊢
    rcases hxy with hxy | ⟨hxy, hxy2⟩
    · rcases hyz with hyz | ⟨hyz, _⟩
      · exact Or.inl (hyz.trans hxy)
      · exact Or.inl (hyz ▸ hxy)
    · rcases hyz with hyz | ⟨hyz, hyz2⟩
      · exact Or.inl (hxy ▸ hyz)
      · exact Or.inr ⟨hxy.trans hyz, Nat.le_trans hxy2 hyz2⟩

/-- All stored records, tagged with their insertion index and sorted by
decreasing similarity to `q` (ties by insertion order). -/
def searchRanked (store : VectorStore) (q : List ℚ) : List (Nat × VectorRecord) :=
  store.records.enum.insertionSort (rank q)

/-- Modelled from the spec: the store's nearest-neighbor search (the backing
collection library is not part of the repository).  Returns at most `k`
records with their similarity scores, best match first. -/
def VectorStore.search (store : VectorStore) (q : List ℚ) (k : Nat) :
    List (VectorRecord × ℚ) :=
  ((searchRanked store q).take k).map fun x => (x.2, cosScore q x.2.embedding)

/-- Outcome of `populate_database`, one constructor per returned message:
`couldNotProcess` for "Не удалось обработать содержимое файла.", `addError`
for "Ошибка при добавлении данных из файла ...", `success` for
"Данные успешно сохранены!". -/
inductive IngestResult where
  | couldNotProcess
  | addError
  | success
deriving DecidableEq, Repr

/-- Python's `str.lower()` over the string's character sequence. -/
def strLower (s : String) : String := ⟨s.data.map Char.toLower⟩

/-- Python's `str.endswith(suffix)` over the strings' character sequences. -/
def strEndsWith (s suff : String) : Bool := suff.data.isSuffixOf s.data

/-- Embedding of `extract_file_content`: dispatch on the (lowercased) file
name's extension. `decodeTxt` models `chardet` detection plus `bytes.decode`,
`extractDocx` models `python-docx` paragraph extraction; both return `none`
where the Python code returns `None` after catching an exception. Unsupported
extensions yield `none` (the Python code logs a warning and returns `None`). -/
def extract_file_content (decodeTxt extractDocx : List Nat → Option String)
    (file_bytes : List Nat) (file_name : String) : Option String :=
  if strEndsWith (strLower file_name) ".txt" then decodeTxt file_bytes
  else if strEndsWith (strLower file_name) ".docx" then extractDocx file_bytes
  else none

/-- Embedding of the sentence loop of `populate_database`: for each sentence,
in order, embed it and add it to the store under the id `str(index)` of its
position in the document.  A failure to embed (`encode` returns `none`,
modelling a raised exception) or to add (the store rejects the record) is
caught and ends the whole loop with `addError`, returning the store as
accumulated so far. -/
def ingestLoop (encode : String → Option (List ℚ)) :
    List String → Nat → VectorStore → VectorStore × IngestResult
  | [], _, store => (store, .success)
  | s :: rest, index, store =>
    match encode s with
    | none => (store, .addError)
    | some v =>
      match store.add ⟨toString index, v, s⟩ with
      | .error _ => (store, .addError)
      | .ok store1 => ingestLoop encode rest (index + 1) store1

/-- Embedding of `populate_database`: extract the text (`couldNotProcess` when
extraction fails or the text is falsy, i.e. empty), segment it with
`sentTokenize` (modelling `nltk.sent_tokenize`) and run the sentence loop
against the store. -/
def populate_database (decodeTxt extractDocx : List Nat → Option String)
    (sentTokenize : String → List String) (encode : String → Option (List ℚ))
    (store : VectorStore) (file_content : List Nat) (file_name : String) :
    VectorStore × IngestResult :=
  match extract_file_content decodeTxt extractDocx file_content file_name with
  | none => (store, .couldNotProcess)
  | some text =>
    if text = "" then (store, .couldNotProcess)
    else ingestLoop encode (sentTokenize text) 0 store

/-- Outcome of `search_similar_content`, one constructor per returned message:
`noMatches` for "Совпадений не найдено. Попробуйте уточнить запрос.",
`results docs` for "Результаты поиска:" followed by the numbered documents,
`searchError` for "Во время поиска произошла ошибка.". -/
inductive SearchOutcome where
  | noMatches
  | results (docs : List String)
  | searchError
deriving DecidableEq, Repr

/-- Embedding of `search_similar_content`: embed the query (`none` models a
raised exception, caught as `searchError`), query the collection with
`n_results = top_n`, which — as the source's `matched_documents[0]` access
shows — returns the matched documents as a one-element outer list holding the
list of matched texts for the single query embedding.  The source then tests
`if not matched_documents` on the OUTER list and otherwise formats
`matched_documents[0]` as the numbered result list. -/
def search_similar_content (encode : String → Option (List ℚ)) (query : String)
    (collection : VectorStore) (top_n : Nat) : SearchOutcome :=
  match encode query with
  | none => .searchError
  | some query_vector =>
    let inner := (collection.search query_vector top_n).map fun r => r.1.text
    let matched_documents : List (List String) := [inner]
    if matched_documents.isEmpty then .noMatches
    else .results inner

/-! Concrete collaborator instances used to evaluate the pipelines on
concrete inputs. -/

/-- Decoder that always yields the text `s` (a file that decodes to `s`). -/
def decConst (s : String) : List Nat → Option String := fun _ => some s

/-- Extractor that always fails (never consulted in the runs below). -/
def decNone : List Nat → Option String := fun _ => none

/-- Segmenter that, like `nltk.sent_tokenize`, yields nothing for
whitespace-only text and otherwise treats the whole text as one sentence. -/
def tokWhole : String → List String := fun t =>
  if t.data.all (fun c => c = ' ') then [] else [t]

/-- Segmenter for a document of five sentences. -/
def tokFive : String → List String := fun _ => ["s0", "s1", "s2", "s3", "s4"]

/-- Segmenter that finds no sentences at all. -/
def tokNone : String → List String := fun _ => []

/-- Embedder that embeds every sentence as the vector `[1]`. -/
def encConst : String → Option (List ℚ) := fun _ => some [1]

/-- Embedder that fails exactly on the sentence `"s2"` (index 2 of
`tokFive`) and embeds every other sentence as `[1]`. -/
def encFailAt2 : String → Option (List ℚ) := fun s =>
  if s = "s2" then none else some [1]

/-- Decoder serving two distinct one-sentence documents: bytes `[0]` decode
to document A, anything else to document B. -/
def decTwoDocs : List Nat → Option String := fun bs =>
  if bs = [0] then some "Cats are mammals." else some "Birds can fly."

/-- The store after ingesting document A: one record under id "0". -/
def storeAfterA : VectorStore := ⟨[⟨"0", [1], "Cats are mammals."⟩]⟩

/-- A store holding a single record with text "hello". -/
def storeHello : VectorStore := ⟨[⟨"0", [1], "hello"⟩]⟩

/-- The store accumulated after the first two sentences of the `tokFive`
document have been ingested. -/
def storeTwo : VectorStore := ⟨[⟨"0", [1], "s0"⟩, ⟨"1", [1], "s1"⟩]⟩

/-- C1: the claim asserts that no two records stored across any number of
ingested documents share an id.  The code derives the id solely from the
sentence's position inside its own document (`ids=[str(index)]`), so two
documents that each have a first sentence both mint id "0": ingesting
document A succeeds and stores id "0", and ingesting document B into the
resulting store collides on id "0" — the add is rejected and document B's
ingestion returns the add-error outcome with nothing stored. -/
theorem ingest_positional_ids_collide_across_documents :
    populate_database decTwoDocs decNone tokWhole encConst VectorStore.empty
        [0] "a.txt" = (storeAfterA, .success)
  ∧ populate_database decTwoDocs decNone tokWhole encConst storeAfterA
        [1] "b.txt" = (storeAfterA, .addError) := by
  constructor
  · decide
  · decide

/-- C2: the claim asserts that when embedding fails for exactly one sentence
index the remaining sentences are still processed and `n - 1` records are
stored.  Evaluating the code on a five-sentence document whose embedding
fails only at index 2 shows ingestion aborts at the failure: only the two
records for indices 0 and 1 are stored (not four) and the whole call returns
the add-error outcome. -/
theorem ingest_aborts_on_single_sentence_failure :
    populate_database (decConst "doc") decNone tokFive encFailAt2
      VectorStore.empty [] "a.txt" = (storeTwo, .addError) := by
  decide

/-- C4: the claim asserts that searching an empty store yields the NoMatches
outcome.  Evaluating the code on an empty store shows it instead returns the
results outcome with an empty document list: the emptiness test
`if not matched_documents` inspects the OUTER per-query list, which is always
the one-element list `[inner]`, so the NoMatches branch is unreachable. -/
theorem empty_store_search_returns_results_header :
    search_similar_content encConst "anything" VectorStore.empty 5
        = .results []
  ∧ SearchOutcome.results [] ≠ SearchOutcome.noMatches := by
  constructor
  · decide
  · decide

/-- C6 counterexample: a document consisting only of whitespace is not
rejected.  The code's guard `if not текст` only fires on the empty string; a
blank text like " " is truthy, reaches segmentation, yields no sentences and
the call reports success — not the rejection the claim requires. -/
theorem blank_document_not_rejected :
    populate_database (decConst " ") decNone tokWhole encConst
      VectorStore.empty [] "a.txt" = (VectorStore.empty, .success) := by
  decide

/-- C6 (amended): a document whose extracted text is the empty string is
rejected immediately with the could-not-process outcome, before any
segmentation, embedding or store modification — the result holds for every
segmenter and embedder and returns the store unchanged. -/
theorem empty_text_rejected_before_segmentation
    (decodeTxt extractDocx : List Nat → Option String)
    (sentTok : String → List String) (encode : String → Option (List ℚ))
    (store : VectorStore) (bytes : List Nat) (name : String)
    (h : extract_file_content decodeTxt extractDocx bytes name = some "") :
    populate_database decodeTxt extractDocx sentTok encode store bytes name
      = (store, .couldNotProcess) := by
  simp [populate_database, h]

/-- Witness for the amended C6 theorem at a concrete input. -/
theorem empty_text_rejected_before_segmentation_witness :
    extract_file_content (decConst "") decNone [] "a.txt" = some ""
  ∧ populate_database (decConst "") decNone tokWhole encConst
      VectorStore.empty [] "a.txt" = (VectorStore.empty, .couldNotProcess) :=
  ⟨by decide,
   empty_text_rejected_before_segmentation (decConst "") decNone tokWhole
     encConst VectorStore.empty [] "a.txt" (by decide)⟩

/-- C7 counterexample: a non-empty document whose segmentation yields zero
sentences is not reported with a distinct NoSentences outcome: the sentence
loop runs zero times and the code returns the generic success outcome. -/
theorem no_sentences_reports_success :
    populate_database (decConst "Hello") decNone tokNone encConst
      VectorStore.empty [] "a.txt" = (VectorStore.empty, .success) := by
  decide

/-- C7 (amended): for every non-empty extracted text whose segmentation
yields zero sentences, ingestion adds no records (the store is returned
unchanged) and reports the generic success outcome rather than a distinct
no-sentences condition. -/
theorem no_sentences_success_store_unchanged
    (decodeTxt extractDocx : List Nat → Option String)
    (sentTok : String → List String) (encode : String → Option (List ℚ))
    (store : VectorStore) (bytes : List Nat) (name t : String)
    (hex : extract_file_content decodeTxt extractDocx bytes name = some t)
    (hne : t ≠ "") (htok : sentTok t = []) :
    populate_database decodeTxt extractDocx sentTok encode store bytes name
      = (store, .success) := by
  simp [populate_database, hex, hne, htok, ingestLoop]

/-- Witness for the amended C7 theorem at a concrete input. -/
theorem no_sentences_success_store_unchanged_witness :
    extract_file_content (decConst "Hello") decNone [] "a.txt" = some "Hello"
  ∧ "Hello" ≠ ""
  ∧ tokNone "Hello" = []
  ∧ populate_database (decConst "Hello") decNone tokNone encConst
      VectorStore.empty [] "a.txt" = (VectorStore.empty, .success) :=
  ⟨by decide, by decide, rfl,
   no_sentences_success_store_unchanged (decConst "Hello") decNone tokNone
     encConst VectorStore.empty [] "a.txt" "Hello"
     (by decide) (by decide) rfl⟩

/-- C8 counterexample: an empty query is not rejected before embedding or
store consultation.  With an embedder that embeds "" and a one-record store,
the empty query flows through the full pipeline and returns that record's
text as a search result. -/
theorem empty_query_consults_store :
    search_similar_content encConst "" storeHello 5 = .results ["hello"] := by
  decide

/-- C8 (amended): the query pipeline has no empty-query check at all — an
empty query whose embedding succeeds is processed exactly like any other
query text with the same embedding. -/
theorem empty_query_processed_like_any_query
    (e1 e2 : String → Option (List ℚ)) (q : String) (v : List ℚ)
    (store : VectorStore) (n : Nat)
    (h1 : e1 "" = some v) (h2 : e2 q = some v) :
    search_similar_content e1 "" store n
      = search_similar_content e2 q store n := by
  unfold search_similar_content
  rw [h1, h2]

/-- Witness for the amended C8 theorem at a concrete input. -/
theorem empty_query_processed_like_any_query_witness :
    encConst "" = some [1]
  ∧ encConst "hi" = some [1]
  ∧ search_similar_content encConst "" storeHello 5
      = search_similar_content encConst "hi" storeHello 5 :=
  ⟨rfl, rfl,
   empty_query_processed_like_any_query encConst encConst "hi" [1]
     storeHello 5 rfl rfl⟩

/-- C9: search is deterministic — the outcome is a function of the store
state and of the query embedding alone, so any two invocations whose
embedding step yields the same vector (in particular two invocations on the
same query) return identical ordered results. -/
theorem search_determinism
    (e1 e2 : String → Option (List ℚ)) (q1 q2 : String)
    (store : VectorStore) (n : Nat) (h : e1 q1 = e2 q2) :
    search_similar_content e1 q1 store n
      = search_similar_content e2 q2 store n := by
  unfold search_similar_content
  rw [h]

/-- Witness for the C9 theorem at a concrete input. -/
theorem search_determinism_witness :
    encConst "query" = encConst "query"
  ∧ search_similar_content encConst "query" storeHello 5
      = search_similar_content encConst "query" storeHello 5 :=
  ⟨rfl, search_determinism encConst encConst "query" "query" storeHello 5 rfl⟩

/-- C10: a file whose (lowercased) name ends in neither ".txt" nor ".docx"
makes `populate_database` return the could-not-process outcome with the store
unchanged; the result holds for every decoder, segmenter and embedder, so no
decoding, segmentation or embedding influences it. -/
theorem unsupported_format_rejected_store_unchanged
    (decodeTxt extractDocx : List Nat → Option String)
    (sentTok : String → List String) (encode : String → Option (List ℚ))
    (store : VectorStore) (bytes : List Nat) (name : String)
    (h1 : strEndsWith (strLower name) ".txt" = false)
    (h2 : strEndsWith (strLower name) ".docx" = false) :
    populate_database decodeTxt extractDocx sentTok encode store bytes name
      = (store, .couldNotProcess) := by
  simp [populate_database, extract_file_content, h1, h2]

/-- Witness for the C10 theorem at a concrete input. -/
theorem unsupported_format_rejected_store_unchanged_witness :
    strEndsWith (strLower "Report.PDF") ".txt" = false
  ∧ strEndsWith (strLower "Report.PDF") ".docx" = false
  ∧ populate_database (decConst "x") decNone tokWhole encConst storeHello
      [] "Report.PDF" = (storeHello, .couldNotProcess) :=
  ⟨by decide, by decide,
   unsupported_format_rejected_store_unchanged (decConst "x") decNone
     tokWhole encConst storeHello [] "Report.PDF"
     (by decide) (by decide)⟩

/-- A successful `add` appends the record, leaving all existing records in
place. -/
theorem add_ok_records {store store1 : VectorStore} {r : VectorRecord}
    (h : store.add r = .ok store1) :
    store1.records = store.records ++ [r] := by
  unfold VectorStore.add at h
  split at h
  · exact absurd h (by simp)
  · split at h
    · split at h
      · exact absurd h (by simp)
      · injection h with h
        rw [← h]
    · exact absurd h (by simp)

/-- The sentence loop never removes records: the input store's record list is
a sublist (in fact an initial segment) of the output store's record list, on
every path including the failing ones. -/
theorem ingestLoop_extends (encode : String → Option (List ℚ))
    (sentences : List String) (index : Nat) (store : VectorStore) :
    List.Sublist store.records
      (ingestLoop encode sentences index store).1.records := by
  induction sentences generalizing index store with
  | nil => exact List.Sublist.refl _
  | cons s rest ih =>
    cases hv : encode s with
    | none =>
      simp only [ingestLoop, hv]
      exact List.Sublist.refl _
    | some v =>
      cases ha : VectorStore.add store ⟨toString index, v, s⟩ with
      | error e =>
        simp only [ingestLoop, hv, ha]
        exact List.Sublist.refl _
      | ok store1 =>
        have h1 : List.Sublist store.records store1.records := by
          rw [add_ok_records ha]
          exact List.sublist_append_left _ _
        have h2 := ih (index + 1) store1
        simp only [ingestLoop, hv, ha]
        exact h1.trans h2

/-- Running the loop on `pre ++ post` first runs it on `pre`; when the `pre`
phase succeeds with store `mid`, the whole run continues on `post` from
`mid`. -/
theorem ingestLoop_append_of_success (encode : String → Option (List ℚ))
    (pre post : List String) (index : Nat) (store mid : VectorStore)
    (h : ingestLoop encode pre index store = (mid, .success)) :
    ingestLoop encode (pre ++ post) index store
      = ingestLoop encode post (index + pre.length) mid := by
  induction pre generalizing index store with
  | nil =>
    simp only [ingestLoop] at h
    have hs : store = mid := congrArg Prod.fst h
    subst hs
    simp
  | cons s rest ih =>
    cases hv : encode s with
    | none =>
      simp only [ingestLoop, hv] at h
      exact absurd (congrArg Prod.snd h) (by simp)
    | some v =>
      cases ha : VectorStore.add store ⟨toString index, v, s⟩ with
      | error e =>
        simp only [ingestLoop, hv, ha] at h
        exact absurd (congrArg Prod.snd h) (by simp)
      | ok store1 =>
        simp only [ingestLoop, hv, ha] at h
        simp only [List.cons_append, ingestLoop, hv, ha, List.append_eq]
        rw [ih (index + 1) store1 h]
        have e : index + 1 + rest.length = index + (rest.length + 1) := by
          omega
        rw [List.length_cons, e]

/-- C5: no loss of already-stored work — if an ingestion run's segmentation
splits as `pre ++ post` and every sentence of `pre` was embedded and stored
successfully (reaching store `mid`), then every record of `mid` — the initial
store plus everything stored for `pre` — is still present after the whole
run returns, whatever failures occur in `post`; a per-sentence failure never
removes previously stored records. -/
theorem ingest_preserves_previously_stored_records
    (decodeTxt extractDocx : List Nat → Option String)
    (sentTok : String → List String) (encode : String → Option (List ℚ))
    (store mid : VectorStore) (bytes : List Nat) (name t : String)
    (pre post : List String)
    (hex : extract_file_content decodeTxt extractDocx bytes name = some t)
    (hne : t ≠ "") (htok : sentTok t = pre ++ post)
    (hpre : ingestLoop encode pre 0 store = (mid, .success)) :
    List.Sublist mid.records
      (populate_database decodeTxt extractDocx sentTok encode
        store bytes name).1.records := by
  have hp : populate_database decodeTxt extractDocx sentTok encode
      store bytes name = ingestLoop encode (pre ++ post) 0 store := by
    simp [populate_database, hex, hne, htok]
  rw [hp, ingestLoop_append_of_success encode pre post 0 store mid hpre]
  exact ingestLoop_extends encode post (0 + pre.length) mid

/-- Witness for the C5 theorem at a concrete input: a five-sentence document
whose third sentence fails to embed keeps the two records stored for the
first two sentences. -/
theorem ingest_preserves_previously_stored_records_witness :
    extract_file_content (decConst "doc") decNone [] "a.txt" = some "doc"
  ∧ "doc" ≠ ""
  ∧ tokFive "doc" = ["s0", "s1"] ++ ["s2", "s3", "s4"]
  ∧ ingestLoop encFailAt2 ["s0", "s1"] 0 VectorStore.empty
      = (storeTwo, .success)
  ∧ List.Sublist storeTwo.records
      (populate_database (decConst "doc") decNone tokFive encFailAt2
        VectorStore.empty [] "a.txt").1.records :=
  ⟨by decide, by decide, by decide, by decide,
   ingest_preserves_previously_stored_records (decConst "doc") decNone
     tokFive encFailAt2 VectorStore.empty storeTwo [] "a.txt" "doc"
     ["s0", "s1"] ["s2", "s3", "s4"]
     (by decide) (by decide) (by decide) (by decide)⟩

/-- The ranking order implies the score comparison it encodes: at least the
similarity inequality, and the insertion-order tie-break under equal
similarity. -/
theorem rank_imp_score_le {q : List ℚ} {x y : Nat × VectorRecord}
    (h : rank q x y) :
    score q y ≤ score q x ∧ (score q x = score q y → x.1 ≤ y.1) := by
  rcases h with h | ⟨h1, h2⟩
  · refine ⟨le_of_lt h, fun he => absurd (he ▸ h) (lt_irrefl _)⟩
  · exact ⟨le_of_eq h1.symm, fun _ => h2⟩

/-- C3: top-k search correctness of the store's nearest-neighbor query — for
every store state, query embedding and limit `k`, the search returns
`min k n` results (at most `k`; exactly `k` when `k ≤ n`); the returned
sequence is the `k`-prefix of the full similarity ranking and is sorted by
decreasing similarity score; the full ranking is a permutation of all stored
records tagged with their insertion indices; and every returned entry
relates to every unreturned entry by the ranking order: its similarity is
greater or equal, and under equal similarity its insertion index is smaller
or equal (ties favor the earlier-inserted record). -/
theorem search_topk_correct (store : VectorStore) (q : List ℚ) (k : Nat) :
    (store.search q k).length = min k store.records.length
  ∧ store.search q k
      = ((searchRanked store q).take k).map
          (fun x => (x.2, cosScore q x.2.embedding))
  ∧ List.Sorted (rank q) ((searchRanked store q).take k)
  ∧ List.Sorted (fun a b : VectorRecord × ℚ => b.2 ≤ a.2) (store.search q k)
  ∧ (searchRanked store q).Perm store.records.enum
  ∧ (∀ x ∈ (searchRanked store q).take k,
      ∀ y ∈ (searchRanked store q).drop k,
        score q y ≤ score q x ∧ (score q x = score q y → x.1 ≤ y.1)) := by
  have hsorted : List.Sorted (rank q) (searchRanked store q) :=
    List.sorted_insertionSort (rank q) store.records.enum
  have hperm : (searchRanked store q).Perm store.records.enum :=
    List.perm_insertionSort (rank q) store.records.enum
  have hlen : (searchRanked store q).length = store.records.length := by
    rw [hperm.length_eq, List.enum_length]
  have htake : List.Sorted (rank q) ((searchRanked store q).take k) :=
    List.Pairwise.sublist (List.take_sublist k _) hsorted
  refine ⟨?_, rfl, htake, ?_, hperm, ?_⟩
  · unfold VectorStore.search
    rw [List.length_map, List.length_take, hlen]
  · unfold VectorStore.search
    refine List.Pairwise.map _ ?_ htake
    intro a b hab
    exact (rank_imp_score_le hab).1
  · intro x hx y hy
    exact rank_imp_score_le (hsorted.rel_of_mem_take_of_mem_drop hx hy)
